import Mathlib

/-!
Verification of the caption annotation core of Korean Clip Finder
(`src/main.py`, class `YouTubeClipFinder`).

The embedded functions are:
- `detect_language` (lines 142-170): script-ratio language classifier;
- `detect_speaker` (lines 172-202): speaker-marker extraction with
  carried-speaker / default-label fallback;
- `annotate` (the per-cue loop of `collect_subtitles`, lines 244-258):
  trims, filters short cues, computes integer times, classifies and
  attributes, threading the current speaker.

Python `float` start/duration values are modelled as exact rationals `ℚ`.
In `detect_language`, single-ratio float comparisons
(`count / total > 0.3`, ratio vs ratio) are modelled as the exact
comparisons (`10 * count > 3 * total`, count vs count): exact and float
agree there for every total below about `2 ^ 52`.  The combined test
`korean_ratio + japanese_ratio > 0.3` is rounding-sensitive at reachable
inputs (`0.1 + 0.2 > 0.3` holds in binary64) and is modelled by an exact
integer implementation of binary64 division and addition
(`ratioSumExceedsPoint3`).  Python `int(x)` (truncation toward zero) is
`pyInt`.  Python `str.strip()` / regex `\s` use the Unicode whitespace set
of `str.isspace`, modelled by `pyIsSpace`.
-/

/-! ### Character classes (the regex ranges used by the source) -/

/-- Regex class `[가-힣]` (Hangul syllables U+AC00..U+D7A3). -/
def isHangul (c : Char) : Bool :=
  0xAC00 ≤ c.toNat && c.toNat ≤ 0xD7A3

/-- Regex class `[a-zA-Z]`. -/
def isLatin (c : Char) : Bool :=
  (0x41 ≤ c.toNat && c.toNat ≤ 0x5A) || (0x61 ≤ c.toNat && c.toNat ≤ 0x7A)

/-- Regex `[ひらがなカタカナ漢字]|[぀-ゟ゠-ヿ一-龯]`:
the literal characters of the first alternative all lie inside the three
ranges of the second, so the union is exactly the three ranges. -/
def isJapaneseChar (c : Char) : Bool :=
  (0x3040 ≤ c.toNat && c.toNat ≤ 0x309F) || (0x30A0 ≤ c.toNat && c.toNat ≤ 0x30FF) ||
  (0x4E00 ≤ c.toNat && c.toNat ≤ 0x9FAF)

/-- Regex class `[A-Z]`. -/
def isUpperAZ (c : Char) : Bool :=
  0x41 ≤ c.toNat && c.toNat ≤ 0x5A

/-- Regex class `[a-z]`. -/
def isLowerAZ (c : Char) : Bool :=
  0x61 ≤ c.toNat && c.toNat ≤ 0x7A

/-- The whitespace set of Python `str.isspace` (used by `str.strip()` and,
in Unicode mode, by the regex class `\s`). -/
def pyIsSpace (c : Char) : Bool :=
  (c.toNat = 0x20) || (0x9 ≤ c.toNat && c.toNat ≤ 0xD) ||
  (0x1C ≤ c.toNat && c.toNat ≤ 0x1F) || (c.toNat = 0x85) || (c.toNat = 0xA0) ||
  (c.toNat = 0x1680) || (0x2000 ≤ c.toNat && c.toNat ≤ 0x200A) ||
  (c.toNat = 0x2028) || (c.toNat = 0x2029) || (c.toNat = 0x202F) ||
  (c.toNat = 0x205F) || (c.toNat = 0x3000)

/-- Python `str.strip()`: remove leading and trailing whitespace. -/
def pyStrip (l : List Char) : List Char :=
  ((l.dropWhile pyIsSpace).reverse.dropWhile pyIsSpace).reverse

/-! ### `detect_language` (src/main.py lines 142-170) -/

/-- Number of characters of `t` satisfying `p` (the length of
`re.findall(characterClass, text)`). -/
def countChars (p : Char → Bool) (t : String) : ℕ :=
  t.data.countP p

/-- `korean_chars = len(re.findall(r'[가-힣]', text))`. -/
def koreanChars (t : String) : ℕ := countChars isHangul t

/-- `english_chars = len(re.findall(r'[a-zA-Z]', text))`. -/
def englishChars (t : String) : ℕ := countChars isLatin t

/-- `japanese_chars`: count of characters in the Japanese ranges. -/
def japaneseChars (t : String) : ℕ := countChars isJapaneseChar t

/-- `total_chars = len(text.replace(' ', ''))`: only the literal space
character U+0020 is removed. -/
def totalChars (t : String) : ℕ := countChars (fun c => c != ' ') t

/-! #### IEEE-754 binary64 model for the combined-ratio test

The code compares Python floats.  A single ratio comparison
`count / total > 0.3`, and a comparison of two ratios sharing the
denominator `total`, agree with the exact rational comparisons
(`10 * count > 3 * total`, count vs count) for every total below
about `2 ^ 52`, far beyond any physical string, so those are modelled
exactly.  The combined test `korean_ratio + japanese_ratio > 0.3`
(src/main.py line 167) is different: it performs two correctly-rounded
divisions and one rounded addition, and already at `k = 1`, `j = 2`,
`total = 10` the float sum `0.1 + 0.2 = 0.30000000000000004` exceeds the
double literal `0.3` although the exact combined ratio is exactly `3/10`.
That test is therefore modelled in binary64 itself: a non-negative double
is a dyadic pair `(m, s)` of value `m / 2 ^ s`, divisions and the addition
round to nearest, ties to even, at 53 significant bits (exponent range
unbounded: subnormal underflow needs `total > 2 ^ 1021`, overflow is
impossible for ratios).  The double of the literal `0.3` is
`5404319552844595 / 2 ^ 54`. -/

/-- Number of binary digits of `n` (0 for 0), by fuelled halving. -/
def bitlenAux : ℕ → ℕ → ℕ
  | 0, _ => 0
  | fuel + 1, n => if n = 0 then 0 else bitlenAux fuel (n / 2) + 1

/-- `bitlen n = ⌊log2 n⌋ + 1` for `n ≥ 1`, and `bitlen 0 = 0`. -/
def bitlen (n : ℕ) : ℕ := bitlenAux n n

/-- Round `p / q` to the nearest integer, ties to even (`q > 0`). -/
def rneNat (p q : ℕ) : ℕ :=
  let d := p / q
  let r := p % q
  if 2 * r < q then d
  else if q < 2 * r then d + 1
  else if d % 2 = 0 then d else d + 1

/-- The binary64 value of `a / b` as a dyadic pair `(m, s)` of value
`m / 2 ^ s`: normalise so that the quotient scaled by `2 ^ shift` lies in
`[2 ^ 52, 2 ^ 53)` (`bitlen (a * 2 ^ K / b) - 1 - K` is `⌊log2 (a / b)⌋`
for `K = bitlen b + 1`), then round to nearest, ties to even. -/
def floatDivAux (a b : ℕ) : ℕ × ℕ :=
  if a = 0 then (0, 0)
  else
    let K := bitlen b + 1
    let n := a * 2 ^ K / b
    let shift := 52 + K - (bitlen n - 1)
    (rneNat (a * 2 ^ shift) b, shift)

/-- The binary64 value of `a / b`, on the fraction in lowest terms (the
rounding depends only on the value of `a / b`; reducing by the gcd makes
that manifest). -/
def floatDivNat (a b : ℕ) : ℕ × ℕ :=
  let g := Nat.gcd a b
  floatDivAux (a / g) (b / g)

/-- Binary64 addition of two non-negative dyadic doubles: align the
exponents (exact) and round the exact sum back to 53 significant bits. -/
def floatAdd (x y : ℕ × ℕ) : ℕ × ℕ :=
  let s := max x.2 y.2
  floatDivAux (x.1 * 2 ^ (s - x.2) + y.1 * 2 ^ (s - y.2)) (2 ^ s)

/-- `korean_ratio + japanese_ratio > 0.3` (src/main.py line 167) as the
interpreter evaluates it: `float(k / total) + float(j / total)` rounded,
compared with the double of the literal `0.3`,
`5404319552844595 / 2 ^ 54`. -/
def ratioSumExceedsPoint3 (k j total : ℕ) : Bool :=
  let z := floatAdd (floatDivNat k total) (floatDivNat j total)
  decide (5404319552844595 * 2 ^ z.2 < z.1 * 2 ^ 54)

/-- The body of `detect_language` after the character counts: Python's
`max(ratios.items(), key=...)` keeps the first maximal entry in insertion
order `korean`, `english`, `japanese` (a later entry replaces the current
one only when its ratio is strictly greater); all ratios share the positive
denominator `total`, so ratio comparisons are count comparisons, and the
single-ratio threshold `ratio > 0.3` is `10 * count > 3 * total` (exact and
float agree there for every reachable total); the combined Hangul+Japanese
test is the binary64 computation `ratioSumExceedsPoint3`. -/
def classifyCounts (k e j total : ℕ) : String :=
  if total = 0 then "unknown"
  else
    let maxVal := if (if k < e then e else k) < j then j
                  else if k < e then e else k
    let maxLang := if (if k < e then e else k) < j then "japanese"
                   else if k < e then "english" else "korean"
    if 3 * total < 10 * maxVal then maxLang
    else if ratioSumExceedsPoint3 k j total then "mixed_asian"
    else "mixed"

/-- `detect_language` (src/main.py lines 142-170). -/
def detect_language (text : String) : String :=
  classifyCounts (koreanChars text) (englishChars text) (japaneseChars text)
    (totalChars text)

/-! ### `detect_speaker` (src/main.py lines 172-202)

Each regex of the `korean_patterns ++ english_patterns` list is embedded as
a deterministic matcher on `List Char`.  All the patterns are anchored at
the start and built from character classes that are disjoint from their
follow set, so greedy matching without backtracking computes exactly the
regex match; on success each matcher returns the captured group and the
text after the whole match (what `re.sub(pattern, '', text)` leaves). -/

/-- `r'^([가-힣]{2,4})\s*:'`: a run of 2-4 Hangul characters (a run of 5 or
more cannot match, since backtracking would leave a Hangul character where
`\s*:` must match), optional whitespace, then a colon. -/
def matchHangulColon (l : List Char) : Option (List Char × List Char) :=
  let label := l.takeWhile isHangul
  if 2 ≤ label.length ∧ label.length ≤ 4 then
    match (l.dropWhile isHangul).dropWhile pyIsSpace with
    | ':' :: r => some (label, r)
    | _ => none
  else none

/-- `r'^\(([가-힣]{2,4})\)'` and the `【】`/`[]` variants: an opening
delimiter, a run of 2-4 Hangul characters, the closing delimiter. -/
def matchHangulDelim (openC closeC : Char) (l : List Char) : Option (List Char × List Char) :=
  match l with
  | [] => none
  | c :: rest =>
    if c = openC then
      let label := rest.takeWhile isHangul
      if 2 ≤ label.length ∧ label.length ≤ 4 then
        match rest.dropWhile isHangul with
        | c2 :: r => if c2 = closeC then some (label, r) else none
        | [] => none
      else none
    else none

/-- `[A-Z][a-z]+`: one capital letter followed by at least one lowercase
letter (greedy). -/
def matchName (l : List Char) : Option (List Char × List Char) :=
  match l with
  | [] => none
  | c :: rest =>
    if isUpperAZ c then
      let lo := rest.takeWhile isLowerAZ
      if lo.length = 0 then none else some (c :: lo, rest.dropWhile isLowerAZ)
    else none

/-- `r'^([A-Z][a-z]+ [A-Z][a-z]+)\s*:'` ("John Smith:"): the separator is
the literal space character. -/
def matchFullNameColon (l : List Char) : Option (List Char × List Char) :=
  match matchName l with
  | none => none
  | some (n1, r1) =>
    match r1 with
    | ' ' :: r2 =>
      match matchName r2 with
      | none => none
      | some (n2, r3) =>
        match r3.dropWhile pyIsSpace with
        | ':' :: r4 => some (n1 ++ ' ' :: n2, r4)
        | _ => none
    | _ => none

/-- `r'^([A-Z][a-z]+)\s*:'` ("John:"). -/
def matchNameColon (l : List Char) : Option (List Char × List Char) :=
  match matchName l with
  | none => none
  | some (n, r) =>
    match r.dropWhile pyIsSpace with
    | ':' :: r2 => some (n, r2)
    | _ => none

/-- `r'^\(([A-Z][a-z]+(?: [A-Z][a-z]+)?)\)'` and the `[]` variant: the
optional second name is attempted when a space follows the first name
(if it then fails, the regex fallback of matching the group empty also
fails, since `)` cannot match the space). -/
def matchDelimName (openC closeC : Char) (l : List Char) : Option (List Char × List Char) :=
  match l with
  | [] => none
  | c :: rest =>
    if c = openC then
      match matchName rest with
      | none => none
      | some (n1, r1) =>
        match r1 with
        | [] => none
        | c2 :: r2 =>
          if c2 = closeC then some (n1, r2)
          else if c2 = ' ' then
            match matchName r2 with
            | none => none
            | some (n2, r3) =>
              match r3 with
              | c3 :: r4 => if c3 = closeC then some (n1 ++ ' ' :: n2, r4) else none
              | [] => none
          else none
    else none

/-- `r'^([A-Z]{2,})\s*:'` ("HOST:", "CEO:"): a maximal run of at least two
capitals, optional whitespace, then a colon. -/
def matchCapsColon (l : List Char) : Option (List Char × List Char) :=
  let u := l.takeWhile isUpperAZ
  if 2 ≤ u.length then
    match (l.dropWhile isUpperAZ).dropWhile pyIsSpace with
    | ':' :: r => some (u, r)
    | _ => none
  else none

/-- The ordered pattern list `korean_patterns + english_patterns` of
`detect_speaker`, first match wins.  Returns the captured label and the
text following the whole match. -/
def detectSpeakerMarkers (l : List Char) : Option (List Char × List Char) :=
  ((((((((matchHangulColon l).orElse
    (fun _ => matchHangulDelim '(' ')' l)).orElse
    (fun _ => matchHangulDelim '【' '】' l)).orElse
    (fun _ => matchHangulDelim '[' ']' l)).orElse
    (fun _ => matchFullNameColon l)).orElse
    (fun _ => matchNameColon l)).orElse
    (fun _ => matchDelimName '(' ')' l)).orElse
    (fun _ => matchDelimName '[' ']' l)).orElse
    (fun _ => matchCapsColon l)

/-- `default_speaker = "화자" if language == 'korean' else "Speaker"`
(src/main.py line 201). -/
def defaultSpeaker (language : String) : String :=
  if language = "korean" then "화자" else "Speaker"

/-- `detect_speaker` (src/main.py lines 172-202).  `previous_speaker` is
`Option String` (`None` default); Python's `previous_speaker or
default_speaker` treats both `None` and `""` as absent. -/
def detect_speaker (text : String) (previous_speaker : Option String)
    (language : String) : String × String :=
  let t := pyStrip text.data
  match detectSpeakerMarkers t with
  | some (label, rest) => (String.mk label, String.mk (pyStrip rest))
  | none =>
    let eff := match previous_speaker with
      | none => defaultSpeaker language
      | some s => if s = "" then defaultSpeaker language else s
    (eff, String.mk t)

/-! ### The cue loop of `collect_subtitles` (src/main.py lines 244-258) -/

/-- One raw transcript cue (`item` of the loop): `item['text']`,
`item['start']`, `item['duration']`, the floats as exact rationals. -/
structure RawCue where
  text : String
  start : ℚ
  duration : ℚ

/-- One emitted row (the tuple inserted into `captions`). -/
structure AnnotatedCaption where
  speaker : String
  text : String
  language : String
  start_time : ℤ
  end_time : ℤ
  duration : ℚ

/-- Python `int()` on a real value: truncation toward zero, which on
non-negative arguments is the floor. -/
def pyInt (q : ℚ) : ℤ :=
  if 0 ≤ q then ⌊q⌋ else -⌊-q⌋

/-- The per-cue loop of `collect_subtitles` (src/main.py lines 244-258):
strip the text, skip cues shorter than 2 characters (the skip leaves
`current_speaker` untouched), compute `start_time = int(item['start'])`
and `end_time = int(start_time + duration)`, classify, attribute with the
carried speaker, emit the row, and carry the detected speaker forward. -/
def annotate (current_speaker : String) : List RawCue → List AnnotatedCaption
  | [] => []
  | item :: rest =>
    let t := pyStrip item.text.data
    if t.length < 2 then annotate current_speaker rest
    else
      let start_time := pyInt item.start
      let end_time := pyInt ((start_time : ℚ) + item.duration)
      let language := detect_language (String.mk t)
      let ds := detect_speaker (String.mk t) (some current_speaker) language
      ⟨ds.1, ds.2, language, start_time, end_time, item.duration⟩ :: annotate ds.1 rest

/-- Python string repetition `text * n`. -/
def repeatStr : ℕ → String → String
  | 0, _ => ""
  | n + 1, t => t ++ repeatStr n t

example : detect_language "" = "unknown" := by decide
example : detect_language "안녕하세요" = "korean" := by decide
example : detect_language "hello there" = "english" := by decide
example : detect_speaker "민수: 안녕하세요" none "korean" = ("민수", "안녕하세요") := by decide
example : detect_speaker "HOST: welcome everyone" none "unknown" = ("HOST", "welcome everyone") := by decide
example : detect_speaker "hello" (some "Alice") "korean" = ("Alice", "hello") := by decide
example : detect_speaker "(민수) 안녕" none "unknown" = ("민수", "안녕") := by decide
example : detect_speaker "[John Smith] hi" none "unknown" = ("John Smith", "hi") := by decide
example : detect_language "こんにちは" = "japanese" := by decide
example : detect_speaker "가나다라마: x" none "unknown" = ("Speaker", "가나다라마: x") := by decide
example : detect_speaker "가나 다라: x" none "unknown" = ("Speaker", "가나 다라: x") := by decide
example : detect_speaker "(John )" none "unknown" = ("Speaker", "(John )") := by decide
example : detect_speaker "John Smith: hi" none "unknown" = ("John Smith", "hi") := by decide
example : detect_speaker "John  : hi" none "unknown" = ("John", "hi") := by decide
example : detect_speaker "ABc: hi" none "unknown" = ("Speaker", "ABc: hi") := by decide
example : detect_speaker "【민수】안녕" none "unknown" = ("민수", "안녕") := by decide
example : detect_language "안녕 hello" = "english" := by decide
example : detect_language "ab안こ" = "english" := by decide
example : detect_language "아こ123456" = "mixed" := by decide
example : detect_language "안1234567" = "mixed" := by decide
example : detect_language "안녕아こ123456" = "mixed_asian" := by decide
example : detect_language "   " = "unknown" := by decide
example : detect_language "아こび1234567" = "mixed_asian" := by decide
example : detect_language "안녕아1234567" = "mixed" := by decide
example : detect_language "こにち1234567" = "mixed" := by decide
example : detect_language "아こ12345678" = "mixed" := by decide

/-! ### Theorems -/

/-- C3: `detect_language` is a total pure function: for every input string
it returns a value from the closed set
`{korean, english, japanese, mixed, mixed_asian, unknown}`, and for every
text whose length after removing space characters is 0 it returns
`unknown`. -/
theorem C3_classify_total_closed_set (t : String) :
    (detect_language t = "korean" ∨ detect_language t = "english" ∨
     detect_language t = "japanese" ∨ detect_language t = "mixed" ∨
     detect_language t = "mixed_asian" ∨ detect_language t = "unknown") ∧
    (totalChars t = 0 → detect_language t = "unknown") := by
  constructor
  · simp only [detect_language, classifyCounts]
    split_ifs <;> simp
  · intro h
    simp [detect_language, classifyCounts, h]

/-- Witness for C3 at the empty string. -/
theorem C3_classify_total_closed_set_witness :
    totalChars "" = 0 ∧ detect_language "" = "unknown" :=
  ⟨by decide, (C3_classify_total_closed_set "").2 (by decide)⟩

/-- C4: on the first matching speaker-marker pattern, `detect_speaker`
returns the captured label and the text with the whole marker removed and
re-trimmed, for any carried speaker and any language:
`"민수: 안녕하세요"` gives `("민수", "안녕하세요")` and
`"HOST: welcome everyone"` gives `("HOST", "welcome everyone")`. -/
theorem C4_marker_extraction_examples :
    (∀ (prev : Option String) (lang : String),
      detect_speaker "민수: 안녕하세요" prev lang = ("민수", "안녕하세요")) ∧
    (∀ (prev : Option String) (lang : String),
      detect_speaker "HOST: welcome everyone" prev lang = ("HOST", "welcome everyone")) :=
  ⟨fun _ _ => rfl, fun _ _ => rfl⟩

/-- C9: when the Latin-letter count is strictly the highest of the three
script classes and its ratio exceeds 0.3, `detect_language` returns
`"english"`. -/
theorem C9_latin_majority_english (t : String) (h0 : totalChars t ≠ 0)
    (hk : koreanChars t < englishChars t)
    (hj : japaneseChars t < englishChars t)
    (ht : 3 * totalChars t < 10 * englishChars t) :
    detect_language t = "english" := by
  have h1 : ¬ (if koreanChars t < englishChars t then englishChars t
      else koreanChars t) < japaneseChars t := by
    rw [if_pos hk]; omega
  have h2 : ¬ englishChars t < japaneseChars t := by omega
  simp only [detect_language, classifyCounts, if_neg h0, if_pos hk, if_neg h2, if_pos ht]

/-- Witness for C9 at `"abc"`. -/
theorem C9_latin_majority_english_witness :
    totalChars "abc" ≠ 0 ∧ detect_language "abc" = "english" :=
  ⟨by decide, C9_latin_majority_english "abc" (by decide) (by decide) (by decide) (by decide)⟩

/-- C2 counterexample: with no marker, no previous speaker and
`language = "japanese"`, `detect_speaker` returns the English placeholder
`"Speaker"`, not a Japanese-language placeholder: the code has no
Japanese default label. -/
theorem C2_japanese_default_is_english :
    detect_speaker "こんにちは" none "japanese" = ("Speaker", "こんにちは") := by
  decide

/-- C2 (amended): when no speaker-marker pattern matches and the previous
speaker is null or empty, `detect_speaker` returns the Korean placeholder
`"화자"` when `language = "korean"` and the English placeholder
`"Speaker"` for every other language (including `"japanese"`); the
residual text is the trimmed input unchanged. -/
theorem C2_default_speaker_labels (text language : String) (prev : Option String)
    (hm : detectSpeakerMarkers (pyStrip text.data) = none)
    (hp : prev = none ∨ prev = some "") :
    detect_speaker text prev language =
      ((if language = "korean" then "화자" else "Speaker"),
        String.mk (pyStrip text.data)) := by
  rcases hp with h | h <;> subst h <;> simp [detect_speaker, hm, defaultSpeaker]

/-- Witness for C2 at `"hello"`, `language = "korean"`, no previous
speaker. -/
theorem C2_default_speaker_labels_witness :
    detectSpeakerMarkers (pyStrip "hello".data) = none ∧
    detect_speaker "hello" none "korean" = ("화자", "hello") := by
  refine ⟨by decide, ?_⟩
  rw [C2_default_speaker_labels "hello" "korean" none (by decide) (Or.inl rfl)]
  decide

/-- C10: the residual text of `detect_speaker` never depends on the
language argument, and the speaker differs between two language arguments
only when no pattern matched and the previous speaker is null or empty, in
which case each run returns its language's default label. -/
theorem C10_language_noninterference (text : String) (prev : Option String)
    (l1 l2 : String) :
    (detect_speaker text prev l1).2 = (detect_speaker text prev l2).2 ∧
    ((detect_speaker text prev l1).1 = (detect_speaker text prev l2).1 ∨
      (detectSpeakerMarkers (pyStrip text.data) = none ∧
       (prev = none ∨ prev = some "") ∧
       (detect_speaker text prev l1).1 = defaultSpeaker l1 ∧
       (detect_speaker text prev l2).1 = defaultSpeaker l2)) := by
  match hm : detectSpeakerMarkers (pyStrip text.data) with
  | some (label, rest) =>
    exact ⟨by simp [detect_speaker, hm], Or.inl (by simp [detect_speaker, hm])⟩
  | none =>
    match prev with
    | none =>
      exact ⟨by simp [detect_speaker, hm], Or.inr ⟨rfl, Or.inl rfl,
        by simp [detect_speaker, hm], by simp [detect_speaker, hm]⟩⟩
    | some s =>
      by_cases hs : s = ""
      · subst hs
        exact ⟨by simp [detect_speaker, hm], Or.inr ⟨rfl, Or.inr rfl,
          by simp [detect_speaker, hm], by simp [detect_speaker, hm]⟩⟩
      · exact ⟨by simp [detect_speaker, hm], Or.inl (by simp [detect_speaker, hm, hs])⟩

/-- The threshold behaviour of `classifyCounts` on nonzero totals:
Python's `max` selects an entry achieving the maximal ratio, the 0.3
threshold decides between its tag and the `mixed_asian` / `mixed`
fallbacks. -/
theorem classifyCounts_spec (k e j total : ℕ) (h0 : total ≠ 0) :
    (3 * total < 10 * max k (max e j) →
      ((classifyCounts k e j total = "korean" ∧ k = max k (max e j)) ∨
       (classifyCounts k e j total = "english" ∧ e = max k (max e j)) ∨
       (classifyCounts k e j total = "japanese" ∧ j = max k (max e j)))) ∧
    (10 * max k (max e j) ≤ 3 * total →
      classifyCounts k e j total =
        if ratioSumExceedsPoint3 k j total then "mixed_asian" else "mixed") := by
  have hM : max k (max e j) =
      if (if k < e then e else k) < j then j else if k < e then e else k := by
    simp only [Nat.max_def]
    split_ifs <;> omega
  rw [hM]
  simp only [classifyCounts, if_neg h0]
  by_cases h1 : (if k < e then e else k) < j
  · simp only [if_pos h1]
    constructor
    · intro hth
      right; right
      exact ⟨by simp [hth], by trivial⟩
    · intro hth
      have hn : ¬ 3 * total < 10 * j := by omega
      simp [hn]
  · simp only [if_neg h1]
    by_cases h2 : k < e
    · simp only [if_pos h2]
      constructor
      · intro hth
        right; left
        exact ⟨by simp [hth], by trivial⟩
      · intro hth
        have hn : ¬ 3 * total < 10 * e := by omega
        simp [hn]
    · simp only [if_neg h2]
      constructor
      · intro hth
        left
        exact ⟨by simp [hth], by trivial⟩
      · intro hth
        have hn : ¬ 3 * total < 10 * k := by omega
        simp [hn]

/-- C6 counterexample: at `"아こび1234567"` (1 Hangul, 2 Japanese, 10
non-space characters) the combined Hangul + Japanese ratio is exactly
`3/10` — it does not exceed 0.3, no single class reaches the threshold,
so the claim demands `"mixed"` — yet `detect_language` returns
`"mixed_asian"`, because the interpreter computes
`0.1 + 0.2 = 0.30000000000000004 > 0.3` in binary64. -/
theorem C6_combined_ratio_float_boundary :
    detect_language "아こび1234567" = "mixed_asian" ∧
    10 * (koreanChars "아こび1234567" + japaneseChars "아こび1234567") =
      3 * totalChars "아こび1234567" ∧
    10 * max (koreanChars "아こび1234567")
        (max (englishChars "아こび1234567") (japaneseChars "아こび1234567")) ≤
      3 * totalChars "아こび1234567" := by
  refine ⟨by decide, by decide, by decide⟩

/-- C6 (amended): for every text that is non-empty after space removal, if
the highest script-class ratio exceeds 0.3 then `detect_language` returns
the tag of a class achieving that highest ratio; otherwise it returns
`"mixed_asian"` exactly when the binary64 evaluation of
`korean_ratio + japanese_ratio > 0.3` holds — which at some inputs whose
exact combined ratio equals 0.3 (such as ratios 0.1 and 0.2) is true by
rounding — and `"mixed"` otherwise. -/
theorem C6_threshold_policy (t : String) (h0 : totalChars t ≠ 0) :
    (3 * totalChars t <
        10 * max (koreanChars t) (max (englishChars t) (japaneseChars t)) →
      ((detect_language t = "korean" ∧
          koreanChars t = max (koreanChars t) (max (englishChars t) (japaneseChars t))) ∨
       (detect_language t = "english" ∧
          englishChars t = max (koreanChars t) (max (englishChars t) (japaneseChars t))) ∨
       (detect_language t = "japanese" ∧
          japaneseChars t = max (koreanChars t) (max (englishChars t) (japaneseChars t))))) ∧
    (10 * max (koreanChars t) (max (englishChars t) (japaneseChars t)) ≤
        3 * totalChars t →
      detect_language t =
        if ratioSumExceedsPoint3 (koreanChars t) (japaneseChars t) (totalChars t)
        then "mixed_asian" else "mixed") :=
  classifyCounts_spec (koreanChars t) (englishChars t) (japaneseChars t) (totalChars t) h0

/-- Witness for C6 at `"안녕"` (pure Hangul, ratio 1 > 0.3, first branch)
and at `"아こび1234567"` (no class above 0.3, second branch). -/
theorem C6_threshold_policy_witness :
    ((detect_language "안녕" = "korean" ∧
      koreanChars "안녕" = max (koreanChars "안녕") (max (englishChars "안녕") (japaneseChars "안녕"))) ∨
    (detect_language "안녕" = "english" ∧
      englishChars "안녕" = max (koreanChars "안녕") (max (englishChars "안녕") (japaneseChars "안녕"))) ∨
    (detect_language "안녕" = "japanese" ∧
      japaneseChars "안녕" = max (koreanChars "안녕") (max (englishChars "안녕") (japaneseChars "안녕")))) ∧
    detect_language "아こび1234567" =
      (if ratioSumExceedsPoint3 (koreanChars "아こび1234567")
          (japaneseChars "아こび1234567") (totalChars "아こび1234567")
       then "mixed_asian" else "mixed") :=
  ⟨(C6_threshold_policy "안녕" (by decide)).1 (by decide),
   (C6_threshold_policy "아こび1234567" (by decide)).2 (by decide)⟩

/-- C5: a cue whose trimmed text is empty or shorter than 2 characters
contributes no output record and leaves the carried speaker unchanged, so
the annotator's output length equals the number of input cues with trimmed
length at least 2. -/
theorem C5_short_cues_skipped :
    (∀ (sp : String) (cues : List RawCue),
      (annotate sp cues).length =
        (cues.filter (fun c => decide (2 ≤ (pyStrip c.text.data).length))).length) ∧
    (∀ (sp : String) (c : RawCue) (rest : List RawCue),
      (pyStrip c.text.data).length < 2 →
      annotate sp (c :: rest) = annotate sp rest) := by
  constructor
  · intro sp cues
    induction cues generalizing sp with
    | nil => rfl
    | cons c rest ih =>
      by_cases h : (pyStrip c.text.data).length < 2
      · have hb : decide (2 ≤ (pyStrip c.text.data).length) = false := by
          simp; omega
        simp [annotate, h, List.filter_cons, hb, ih]
      · have hb : decide (2 ≤ (pyStrip c.text.data).length) = true := by
          simp; omega
        simp [annotate, h, List.filter_cons, hb, ih]
  · intro sp c rest h
    simp [annotate, h]

/-- Witness for C5: a one-character cue is skipped. -/
theorem C5_short_cues_skipped_witness :
    (pyStrip "x".data).length < 2 ∧
    annotate "Channel" [RawCue.mk "x" 1 1] = annotate "Channel" [] :=
  ⟨by decide, C5_short_cues_skipped.2 "Channel" (RawCue.mk "x" 1 1) [] (by decide)⟩

/-- Every record emitted by `annotate` gets its times from some input cue:
`start_time = int(start)` and `end_time = int(int(start) + duration)`. -/
theorem annotate_times (sp : String) (cues : List RawCue) :
    ∀ r ∈ annotate sp cues, ∃ c ∈ cues,
      r.start_time = pyInt c.start ∧
      r.end_time = pyInt ((pyInt c.start : ℚ) + c.duration) ∧
      r.duration = c.duration := by
  induction cues generalizing sp with
  | nil => intro r hr; simp [annotate] at hr
  | cons c rest ih =>
    intro r hr
    simp only [annotate] at hr
    by_cases h : (pyStrip c.text.data).length < 2
    · rw [if_pos h] at hr
      obtain ⟨c', hc', hprop⟩ := ih sp r hr
      exact ⟨c', List.mem_cons_of_mem _ hc', hprop⟩
    · rw [if_neg h] at hr
      rcases List.mem_cons.1 hr with h1 | h1
      · subst h1
        exact ⟨c, List.mem_cons_self _ _, rfl, rfl, rfl⟩
      · obtain ⟨c', hc', hprop⟩ := ih _ r h1
        exact ⟨c', List.mem_cons_of_mem _ hc', hprop⟩

/-- C1 counterexample: for the cue `("hello", start = 1/2, duration = 3/5)`
the annotator emits `end_time = 0`, while the floor of the exact sum
`start + duration = 11/10` is `1`: the code computes
`int(int(start) + duration)`, not `floor(start + duration)`. -/
theorem C1_floor_of_exact_sum_fails :
    (annotate "Channel" [RawCue.mk "hello" (1/2) (3/5)]).map
        (fun r => (r.start_time, r.end_time)) = [(0, 0)] ∧
    ⌊(1/2 : ℚ) + 3/5⌋ = 1 := by
  constructor
  · simp only [annotate]
    rw [if_neg (by decide)]
    simp only [annotate, List.map]
    have h1 : pyInt (1/2 : ℚ) = 0 := by
      rw [pyInt, if_pos (by norm_num)]
      norm_num
    have h2 : pyInt (((0 : ℤ) : ℚ) + 3/5) = 0 := by
      rw [pyInt, if_pos (by norm_num)]
      norm_num
    rw [h1, h2]
  · norm_num

/-- C1 (amended): for every processed cue with non-negative start and
duration, the emitted record has `startTime = ⌊start⌋` and
`endTime = ⌊⌊start⌋ + duration⌋`: the start is truncated first and the
floor is applied to the truncated start plus the duration, not once to
the exact sum. -/
theorem C1_truncated_end_time (sp : String) (cues : List RawCue)
    (h : ∀ c ∈ cues, 0 ≤ c.start ∧ 0 ≤ c.duration) :
    ∀ r ∈ annotate sp cues, ∃ c ∈ cues,
      r.start_time = ⌊c.start⌋ ∧
      r.end_time = ⌊((⌊c.start⌋ : ℤ) : ℚ) + c.duration⌋ := by
  intro r hr
  obtain ⟨c, hc, h1, h2, _⟩ := annotate_times sp cues r hr
  obtain ⟨hs, hd⟩ := h c hc
  have hfloor : pyInt c.start = ⌊c.start⌋ := if_pos hs
  refine ⟨c, hc, by rw [h1, hfloor], ?_⟩
  rw [h2, hfloor]
  have hnn : (0 : ℚ) ≤ ((⌊c.start⌋ : ℤ) : ℚ) + c.duration := by
    have hf : (0 : ℚ) ≤ ((⌊c.start⌋ : ℤ) : ℚ) := by
      exact_mod_cast Int.floor_nonneg.mpr hs
    linarith
  exact if_pos hnn

/-- Witness for C1 (amended) at a single cue with integral times. -/
theorem C1_truncated_end_time_witness :
    (∀ c ∈ [RawCue.mk "hello there" 1 2], 0 ≤ c.start ∧ 0 ≤ c.duration) ∧
    (∀ r ∈ annotate "Channel" [RawCue.mk "hello there" 1 2],
      ∃ c ∈ [RawCue.mk "hello there" 1 2],
        r.start_time = ⌊c.start⌋ ∧
        r.end_time = ⌊((⌊c.start⌋ : ℤ) : ℚ) + c.duration⌋) :=
  ⟨by decide, C1_truncated_end_time "Channel" [RawCue.mk "hello there" 1 2] (by decide)⟩

/-- C7: for every record emitted from cues with non-negative start and
duration, `end_time ≥ start_time`. -/
theorem C7_end_time_ge_start_time (sp : String) (cues : List RawCue)
    (h : ∀ c ∈ cues, 0 ≤ c.start ∧ 0 ≤ c.duration) :
    ∀ r ∈ annotate sp cues, r.start_time ≤ r.end_time := by
  intro r hr
  obtain ⟨c, hc, h1, h2, _⟩ := annotate_times sp cues r hr
  obtain ⟨hs, hd⟩ := h c hc
  have hfloor : pyInt c.start = ⌊c.start⌋ := if_pos hs
  rw [h1, h2, hfloor]
  have hnn : (0 : ℚ) ≤ ((⌊c.start⌋ : ℤ) : ℚ) + c.duration := by
    have hf : (0 : ℚ) ≤ ((⌊c.start⌋ : ℤ) : ℚ) := by
      exact_mod_cast Int.floor_nonneg.mpr hs
    linarith
  rw [pyInt, if_pos hnn, Int.floor_int_add]
  have hdf : 0 ≤ ⌊c.duration⌋ := Int.floor_nonneg.mpr hd
  omega

/-- Witness for C7 at a single cue. -/
theorem C7_end_time_ge_start_time_witness :
    (∀ c ∈ [RawCue.mk "hello there" 1 2], 0 ≤ c.start ∧ 0 ≤ c.duration) ∧
    (∀ r ∈ annotate "Channel" [RawCue.mk "hello there" 1 2],
      r.start_time ≤ r.end_time) :=
  ⟨by decide, C7_end_time_ge_start_time "Channel" [RawCue.mk "hello there" 1 2] (by decide)⟩

/-- Character counts are additive under string concatenation. -/
theorem countChars_append (p : Char → Bool) (a b : String) :
    countChars p (a ++ b) = countChars p a + countChars p b := by
  have hd : (a ++ b).data = a.data ++ b.data := rfl
  simp [countChars, hd, List.countP_append]

/-- Character counts scale linearly under repetition. -/
theorem countChars_repeatStr (p : Char → Bool) (t : String) :
    ∀ n, countChars p (repeatStr n t) = n * countChars p t
  | 0 => by simp [repeatStr, countChars]
  | n + 1 => by
    rw [repeatStr, countChars_append, countChars_repeatStr p t n]
    ring

/-- The rounded double of a fraction depends only on its value: scaling
numerator and denominator by a positive factor scales the gcd too, so the
reduced fraction handed to the rounding core is unchanged. -/
theorem floatDivNat_scale (n a b : ℕ) (hn : 0 < n) :
    floatDivNat (n * a) (n * b) = floatDivNat a b := by
  simp only [floatDivNat]
  rw [Nat.gcd_mul_left n a b]
  by_cases hg : Nat.gcd a b = 0
  · rw [hg, Nat.mul_zero]
    simp [Nat.div_zero]
  · rw [Nat.mul_div_mul_left a (Nat.gcd a b) hn, Nat.mul_div_mul_left b (Nat.gcd a b) hn]

/-- The binary64 combined-ratio test is invariant under scaling the counts
and the total by a positive factor (the two float ratios are unchanged as
values, hence as doubles). -/
theorem ratioSumExceedsPoint3_scale (n k j total : ℕ) (hn : 0 < n) :
    ratioSumExceedsPoint3 (n * k) (n * j) (n * total) = ratioSumExceedsPoint3 k j total := by
  unfold ratioSumExceedsPoint3
  rw [floatDivNat_scale n k total hn, floatDivNat_scale n j total hn]

/-- `classifyCounts` is invariant under scaling all four counts by a
positive factor (every comparison it makes shares the factor). -/
theorem classifyCounts_scale (n k e j total : ℕ) (hn : 0 < n) :
    classifyCounts (n * k) (n * e) (n * j) (n * total) = classifyCounts k e j total := by
  have hiff : ∀ a b : ℕ, (n * a < n * b) ↔ (a < b) := by
    intro a b
    constructor
    · intro hlt
      exact lt_of_mul_lt_mul_left hlt (Nat.zero_le n)
    · intro hlt
      exact mul_lt_mul_of_pos_left hlt hn
  have hth : ∀ a b c d : ℕ, (a * (n * b) < c * (n * d)) ↔ (a * b < c * d) := by
    intro a b c d
    rw [Nat.mul_left_comm a n b, Nat.mul_left_comm c n d]
    exact hiff (a * b) (c * d)
  have hzero : (n * total = 0) ↔ (total = 0) := by
    rcases Nat.mul_eq_zero.symm with _
    constructor
    · intro hh
      rcases Nat.mul_eq_zero.mp hh with hh' | hh'
      · omega
      · exact hh'
    · intro hh
      rw [hh, Nat.mul_zero]
  by_cases h0 : total = 0
  · rw [classifyCounts, classifyCounts, if_pos h0, if_pos (hzero.mpr h0)]
  · rw [classifyCounts, classifyCounts, if_neg h0,
      if_neg (fun hh => h0 (hzero.mp hh))]
    have h1iff : ((if n * k < n * e then n * e else n * k) < n * j) ↔
        ((if k < e then e else k) < j) := by
      by_cases hke : k < e
      · rw [if_pos hke, if_pos ((hiff k e).mpr hke)]
        exact hiff e j
      · rw [if_neg hke, if_neg (fun hh => hke ((hiff k e).mp hh))]
        exact hiff k j
    have tail : ∀ (X : ℕ) (L : String),
        (if 3 * (n * total) < 10 * (n * X) then L
         else if ratioSumExceedsPoint3 (n * k) (n * j) (n * total) then "mixed_asian"
         else "mixed")
        = (if 3 * total < 10 * X then L
           else if ratioSumExceedsPoint3 k j total then "mixed_asian"
           else "mixed") := by
      intro X L
      rw [ratioSumExceedsPoint3_scale n k j total hn]
      by_cases hX : 3 * total < 10 * X
      · rw [if_pos hX, if_pos ((hth 3 total 10 X).mpr hX)]
      · rw [if_neg hX, if_neg (fun hh => hX ((hth 3 total 10 X).mp hh))]
    by_cases h1 : (if k < e then e else k) < j
    · simp only [if_pos h1, if_pos (h1iff.mpr h1)]
      exact tail j "japanese"
    · simp only [if_neg h1, if_neg (fun hh => h1 (h1iff.mp hh))]
      by_cases hke : k < e
      · simp only [if_pos hke, if_pos ((hiff k e).mpr hke)]
        exact tail e "english"
      · simp only [if_neg hke, if_neg (fun hh => hke ((hiff k e).mp hh))]
        exact tail k "korean"

/-- A Hangul syllable is not a Latin letter, not in the Japanese ranges,
and not a space. -/
theorem isHangul_exclusive (c : Char) (h : isHangul c = true) :
    isLatin c = false ∧ isJapaneseChar c = false ∧ (c != ' ') = true := by
  simp only [isHangul, Bool.and_eq_true, decide_eq_true_eq] at h
  refine ⟨?_, ?_, ?_⟩
  · rcases Bool.eq_false_or_eq_true (isLatin c) with hb | hb
    · exfalso
      simp only [isLatin, Bool.or_eq_true, Bool.and_eq_true, decide_eq_true_eq] at hb
      omega
    · exact hb
  · rcases Bool.eq_false_or_eq_true (isJapaneseChar c) with hb | hb
    · exfalso
      simp only [isJapaneseChar, Bool.or_eq_true, Bool.and_eq_true,
        decide_eq_true_eq] at hb
      omega
    · exact hb
  · have hne : c ≠ ' ' := by
      intro hEq
      subst hEq
      revert h
      decide
    simp [hne]

/-- A Latin letter is not a Hangul syllable, not in the Japanese ranges,
and not a space. -/
theorem isLatin_exclusive (c : Char) (h : isLatin c = true) :
    isHangul c = false ∧ isJapaneseChar c = false ∧ (c != ' ') = true := by
  simp only [isLatin, Bool.or_eq_true, Bool.and_eq_true, decide_eq_true_eq] at h
  refine ⟨?_, ?_, ?_⟩
  · rcases Bool.eq_false_or_eq_true (isHangul c) with hb | hb
    · exfalso
      simp only [isHangul, Bool.and_eq_true, decide_eq_true_eq] at hb
      omega
    · exact hb
  · rcases Bool.eq_false_or_eq_true (isJapaneseChar c) with hb | hb
    · exfalso
      simp only [isJapaneseChar, Bool.or_eq_true, Bool.and_eq_true,
        decide_eq_true_eq] at hb
      omega
    · exact hb
  · have hne : c ≠ ' ' := by
      intro hEq
      subst hEq
      revert h
      decide
    simp [hne]

/-- A character of the Japanese ranges is not a Hangul syllable, not a
Latin letter, and not a space. -/
theorem isJapaneseChar_exclusive (c : Char) (h : isJapaneseChar c = true) :
    isHangul c = false ∧ isLatin c = false ∧ (c != ' ') = true := by
  simp only [isJapaneseChar, Bool.or_eq_true, Bool.and_eq_true, decide_eq_true_eq] at h
  refine ⟨?_, ?_, ?_⟩
  · rcases Bool.eq_false_or_eq_true (isHangul c) with hb | hb
    · exfalso
      simp only [isHangul, Bool.and_eq_true, decide_eq_true_eq] at hb
      omega
    · exact hb
  · rcases Bool.eq_false_or_eq_true (isLatin c) with hb | hb
    · exfalso
      simp only [isLatin, Bool.or_eq_true, Bool.and_eq_true, decide_eq_true_eq] at hb
      omega
    · exact hb
  · have hne : c ≠ ' ' := by
      intro hEq
      subst hEq
      revert h
      decide
    simp [hne]

/-- Pure-Hangul counts classify as `"korean"`. -/
theorem classifyCounts_pure_korean (L : ℕ) (hL : L ≠ 0) :
    classifyCounts L 0 0 L = "korean" := by
  rw [classifyCounts, if_neg hL]
  have c1 : ¬ (L < 0) := Nat.not_lt_zero _
  simp only [if_neg c1]
  have c2 : 3 * L < 10 * L := by omega
  rw [if_pos c2]

/-- Pure-Latin counts classify as `"english"`. -/
theorem classifyCounts_pure_english (L : ℕ) (hL : L ≠ 0) :
    classifyCounts 0 L 0 L = "english" := by
  rw [classifyCounts, if_neg hL]
  have hke : (0 : ℕ) < L := Nat.pos_of_ne_zero hL
  have c1 : ¬ (L < 0) := Nat.not_lt_zero _
  simp only [if_pos hke, if_neg c1]
  have c2 : 3 * L < 10 * L := by omega
  rw [if_pos c2]

/-- Pure-Japanese counts classify as `"japanese"`. -/
theorem classifyCounts_pure_japanese (L : ℕ) (hL : L ≠ 0) :
    classifyCounts 0 0 L L = "japanese" := by
  rw [classifyCounts, if_neg hL]
  have c0 : ¬ ((0 : ℕ) < 0) := by omega
  have hj : (0 : ℕ) < L := Nat.pos_of_ne_zero hL
  simp only [if_neg c0, if_pos hj]
  have c2 : 3 * L < 10 * L := by omega
  rw [if_pos c2]

/-- C8: `detect_language` of a text repeated `n ≥ 1` times equals
`detect_language` of the text (ratio invariance); in particular a
non-empty text composed entirely of one script class — all Hangul, all
Latin letters, or all Japanese-range characters, so that class's ratio is
1, above the 0.3 threshold — classifies to that class's tag at every
scale. -/
theorem C8_ratio_invariance (t : String) (n : ℕ) (hn : 0 < n) :
    detect_language (repeatStr n t) = detect_language t ∧
    (t.data ≠ [] → (∀ c ∈ t.data, isHangul c = true) →
      detect_language (repeatStr n t) = "korean") ∧
    (t.data ≠ [] → (∀ c ∈ t.data, isLatin c = true) →
      detect_language (repeatStr n t) = "english") ∧
    (t.data ≠ [] → (∀ c ∈ t.data, isJapaneseChar c = true) →
      detect_language (repeatStr n t) = "japanese") := by
  have hscale : detect_language (repeatStr n t) = detect_language t := by
    simp only [detect_language, koreanChars, englishChars, japaneseChars, totalChars,
      countChars_repeatStr]
    exact classifyCounts_scale n _ _ _ _ hn
  refine ⟨hscale, fun hne hall => ?_, fun hne hall => ?_, fun hne hall => ?_⟩
  · rw [hscale]
    have hk : koreanChars t = t.data.length :=
      List.countP_eq_length.mpr hall
    have he : englishChars t = 0 :=
      List.countP_eq_zero.mpr fun c hc => by
        rw [(isHangul_exclusive c (hall c hc)).1]
        exact Bool.false_ne_true
    have hj : japaneseChars t = 0 :=
      List.countP_eq_zero.mpr fun c hc => by
        rw [(isHangul_exclusive c (hall c hc)).2.1]
        exact Bool.false_ne_true
    have htot : totalChars t = t.data.length :=
      List.countP_eq_length.mpr fun c hc => (isHangul_exclusive c (hall c hc)).2.2
    have hL : t.data.length ≠ 0 := fun hh => hne (List.length_eq_zero.mp hh)
    rw [detect_language, hk, he, hj, htot]
    exact classifyCounts_pure_korean _ hL
  · rw [hscale]
    have he : englishChars t = t.data.length :=
      List.countP_eq_length.mpr hall
    have hk : koreanChars t = 0 :=
      List.countP_eq_zero.mpr fun c hc => by
        rw [(isLatin_exclusive c (hall c hc)).1]
        exact Bool.false_ne_true
    have hj : japaneseChars t = 0 :=
      List.countP_eq_zero.mpr fun c hc => by
        rw [(isLatin_exclusive c (hall c hc)).2.1]
        exact Bool.false_ne_true
    have htot : totalChars t = t.data.length :=
      List.countP_eq_length.mpr fun c hc => (isLatin_exclusive c (hall c hc)).2.2
    have hL : t.data.length ≠ 0 := fun hh => hne (List.length_eq_zero.mp hh)
    rw [detect_language, hk, he, hj, htot]
    exact classifyCounts_pure_english _ hL
  · rw [hscale]
    have hj : japaneseChars t = t.data.length :=
      List.countP_eq_length.mpr hall
    have hk : koreanChars t = 0 :=
      List.countP_eq_zero.mpr fun c hc => by
        rw [(isJapaneseChar_exclusive c (hall c hc)).1]
        exact Bool.false_ne_true
    have he : englishChars t = 0 :=
      List.countP_eq_zero.mpr fun c hc => by
        rw [(isJapaneseChar_exclusive c (hall c hc)).2.1]
        exact Bool.false_ne_true
    have htot : totalChars t = t.data.length :=
      List.countP_eq_length.mpr fun c hc => (isJapaneseChar_exclusive c (hall c hc)).2.2
    have hL : t.data.length ≠ 0 := fun hh => hne (List.length_eq_zero.mp hh)
    rw [detect_language, hk, he, hj, htot]
    exact classifyCounts_pure_japanese _ hL

/-- Witness for C8: `"안녕"`, `"ab"` and `"こんにちは"` repeated twice. -/
theorem C8_ratio_invariance_witness :
    detect_language (repeatStr 2 "안녕") = detect_language "안녕" ∧
    detect_language (repeatStr 2 "안녕") = "korean" ∧
    detect_language (repeatStr 2 "ab") = "english" ∧
    detect_language (repeatStr 2 "こんにちは") = "japanese" :=
  ⟨(C8_ratio_invariance "안녕" 2 (by decide)).1,
   (C8_ratio_invariance "안녕" 2 (by decide)).2.1 (by decide) (by decide),
   (C8_ratio_invariance "ab" 2 (by decide)).2.2.1 (by decide) (by decide),
   (C8_ratio_invariance "こんにちは" 2 (by decide)).2.2.2 (by decide) (by decide)⟩
